import Mathlib

/-!
Verification of the AI-music generation pipeline (src/prompts.py,
src/pipeline.py, src/audio_utils.py) against its specification.

The Python source is shallowly embedded: pure logic becomes Lean
functions; the module-level PRNG of Python's `random` is threaded as an
explicit state of an abstract generator type; external library calls
(librosa descriptors, the replicate client, pandas I/O) are parameters;
fallible code returns `Except`.  Audio sample buffers are `List ℚ`
(librosa yields float samples); millisecond durations and sample counts
are `ℕ`.
-/

namespace AIMusic

/-! ## prompts.py -/

/-- The fixed pool of 30 prompts (`PROMPT_POOL` in src/prompts.py). -/
def PROMPT_POOL : List String :=
  [ "Upbeat electronic dance track with bright synths and punchy drums"
  , "Lo-fi hip hop beat for studying with warm vinyl crackle"
  , "Ambient piano with evolving pads, slow and emotional"
  , "Energetic rock with distorted guitars and powerful drums"
  , "Funky groove with slap bass and tight rhythm guitar"
  , "Epic orchestral with driving strings and heroic brass"
  , "Dreamy synthwave with nostalgic 80s vibe"
  , "Chill house with deep bass and soft vocal chops"
  , "Cinematic trailer with tension and massive hits"
  , "Melancholic acoustic guitar ballad"
  , "Pulsing techno with minimal melodic elements"
  , "Happy ukulele tune with hand claps and whistle"
  , "Dark trap beat with 808s and sparse piano"
  , "Jazz trio: piano, upright bass, and brushed drums"
  , "Latin reggaeton rhythm with catchy hooks"
  , "Bossa nova with smooth guitar and soft percussion"
  , "Drum and bass with rapid breakbeats and airy pads"
  , "K-pop inspired dance-pop with catchy chorus"
  , "African afrobeat groove with polyrhythms"
  , "Indian classical fusion with sitar and electronic beats"
  , "Meditation music with Tibetan bowls and drones"
  , "Celtic folk with fiddle and bodhrán"
  , "Bluegrass with banjo, mandolin, and fast tempo"
  , "Moody R&B slow jam with lush harmonies"
  , "Cheerful children’s tune with simple melody"
  , "Hardstyle EDM with distorted kicks and anthemic leads"
  , "Minimalist piano motif with subtle reverb"
  , "Experimental glitch with granular textures"
  , "Soulful gospel choir with organ backing"
  , "Festive holiday jingle with sleigh bells" ]

/-- Selection loop of CPython's `random.sample` (partial Fisher–Yates on a
pool copy): draw an index `j` below the active pool size, emit `pool[j]`,
move the last active element into slot `j`, shrink the active pool by one.
The generator is abstract: `rb st n` draws an index below `n` (the
`_randbelow` primitive) and returns the successor generator state. -/
def pySampleAux {S : Type} (rb : S → Nat → Nat × S) :
    Nat → List String → S → List String × S
  | 0, _, st => ([], st)
  | k + 1, pool, st =>
    let js := rb st pool.length
    let x := pool.getD js.1 ""
    let pool1 := (pool.set js.1 (pool.getLastD "")).dropLast
    let rest := pySampleAux rb k pool1 js.2
    (x :: rest.1, rest.2)

/-- `random.sample(population, k)`: raises
`ValueError("Sample larger than population or is negative")` unless
`0 <= k <= len(population)`, else selects `k` elements without
replacement. -/
def pySample {S : Type} (rb : S → Nat → Nat × S) (pool : List String)
    (k : ℤ) (st : S) : Except String (List String × S) :=
  if 0 ≤ k ∧ k ≤ (pool.length : ℤ) then
    Except.ok (pySampleAux rb k.toNat pool st)
  else
    Except.error "Sample larger than population or is negative"

/-- `[random.choice(pool) for _ in range(k)]`: `k` draws with replacement
(`random.choice(seq)` returns `seq[_randbelow(len(seq))]`). -/
def pyChoiceList {S : Type} (rb : S → Nat → Nat × S) (pool : List String) :
    Nat → S → List String × S
  | 0, st => ([], st)
  | k + 1, st =>
    let js := rb st pool.length
    let rest := pyChoiceList rb pool k js.2
    (pool.getD js.1 "" :: rest.1, rest.2)

/-- `sample_prompts(num, seed)` from src/prompts.py.  `random.seed(seed)`
replaces the module-level generator state (the incoming state `st0` is
discarded and `seedFn seed` installed), then the function either samples
without replacement (`num <= len(PROMPT_POOL)`) or draws with
replacement. -/
def sample_prompts {S : Type} (rb : S → Nat → Nat × S) (seedFn : ℤ → S)
    (num : ℤ) (seed : ℤ) (st0 : S) : Except String (List String × S) :=
  let _ := st0
  let st := seedFn seed
  if num ≤ (PROMPT_POOL.length : ℤ) then
    pySample rb PROMPT_POOL num st
  else
    Except.ok (pyChoiceList rb PROMPT_POOL num.toNat st)

/-! ### Lemmas about sampling -/

lemma prompt_pool_nodup : PROMPT_POOL.Nodup := by decide

lemma prompt_pool_length : PROMPT_POOL.length = 30 := by rfl

/-- Swapping the chosen slot with the last active element preserves the
pool as a multiset: the chosen element together with the shrunk pool is
exactly the original pool. -/
lemma cons_shrink_eq (pool : List String) (j : Nat) (hj : j < pool.length) :
    (pool.getD j "") ::ₘ
        (((pool.set j (pool.getLastD "")).dropLast : List String) : Multiset String)
      = (pool : Multiset String) := by
  have hne : pool ≠ [] := List.ne_nil_of_length_pos (Nat.lt_of_le_of_lt (Nat.zero_le _) hj)
  have hlast : pool.getLastD "" = pool.getLast hne := by
    simp [List.getLastD_eq_getLast?, List.getLast?_eq_getLast pool hne]
  have hlastElem : pool.getLast hne = pool[pool.length - 1] :=
    List.getLast_eq_getElem pool hne
  have hset : pool.set j (pool.getLastD "")
      = pool.take j ++ pool[pool.length - 1] :: pool.drop (j + 1) := by
    rw [hlast, hlastElem, List.set_eq_take_append_cons_drop, if_pos hj]
  rcases Nat.lt_or_ge j (pool.length - 1) with hjlt | hjge
  · -- `j` is not the last slot: the dropped tail is nonempty.
    have hDne : pool.drop (j + 1) ≠ [] := by
      apply List.ne_nil_of_length_pos
      rw [List.length_drop]
      omega
    have hsplit : pool = pool.take j ++ pool[j] :: pool.drop (j + 1) := by
      conv_lhs => rw [← List.take_append_drop j pool]
      rw [← List.drop_eq_getElem_cons hj]
    have hDlast : (pool.drop (j + 1)).getLast hDne = pool[pool.length - 1] := by
      rw [List.getLast_eq_getElem _ hDne, List.getElem_drop]
      congr 1
      rw [List.length_drop]
      omega
    have hDdecomp : pool.drop (j + 1)
        = (pool.drop (j + 1)).dropLast ++ [pool[pool.length - 1]] := by
      conv_lhs => rw [← List.dropLast_append_getLast hDne]
      rw [hDlast]
    have hdrop : (pool.set j (pool.getLastD "")).dropLast
        = (pool.take j ++ [pool[pool.length - 1]]) ++ (pool.drop (j + 1)).dropLast := by
      rw [hset]
      rw [show pool.take j ++ pool[pool.length - 1] :: pool.drop (j + 1)
            = (pool.take j ++ [pool[pool.length - 1]]) ++ pool.drop (j + 1) by simp]
      rw [List.dropLast_append_of_ne_nil _ hDne]
    rw [hdrop, List.getD_eq_getElem pool "" hj]
    conv_rhs => rw [hsplit, hDdecomp]
    simp only [← Multiset.cons_coe, ← Multiset.coe_add, Multiset.coe_nil,
      ← Multiset.singleton_add]
    abel
  · -- `j` is the last slot: the element is put back where it was.
    have hj_eq : j = pool.length - 1 := by omega
    have hdropnil : pool.drop (j + 1) = [] := by
      apply List.eq_nil_of_length_eq_zero
      rw [List.length_drop]
      omega
    have htake : pool.take j = pool.dropLast := by
      rw [hj_eq, List.dropLast_eq_take]
    have hdrop : (pool.set j (pool.getLastD "")).dropLast = pool.dropLast := by
      rw [hset, hdropnil, htake]
      exact List.dropLast_concat
    have hgd : pool.getD j "" = pool[pool.length - 1] := by
      rw [List.getD_eq_getElem pool "" hj]
      congr 1
    have hpool : pool.dropLast ++ [pool[pool.length - 1]] = pool := by
      conv_rhs => rw [← List.dropLast_append_getLast hne]
      rw [hlastElem]
    rw [hdrop, hgd, Multiset.cons_coe, Multiset.coe_eq_coe]
    conv_rhs => rw [← hpool]
    exact (List.perm_append_singleton _ _).symm

/-- Invariant of the `random.sample` selection loop: provided the index
generator honours its bound, the emitted elements form a sub-multiset of
the pool and there are exactly `k` of them. -/
lemma pySampleAux_le {S : Type} (rb : S → Nat → Nat × S)
    (hrb : ∀ st n, 0 < n → (rb st n).1 < n) :
    ∀ (k : Nat) (pool : List String) (st : S), k ≤ pool.length →
      ((pySampleAux rb k pool st).1 : Multiset String) ≤ (pool : Multiset String) ∧
      (pySampleAux rb k pool st).1.length = k := by
  intro k
  induction k with
  | zero => intro pool st _; simp [pySampleAux]
  | succ k ih =>
    intro pool st hk
    have hpos : 0 < pool.length := Nat.lt_of_lt_of_le (Nat.succ_pos k) hk
    have hj : (rb st pool.length).1 < pool.length := hrb st pool.length hpos
    have hlen1 : ((pool.set (rb st pool.length).1 (pool.getLastD "")).dropLast).length
        = pool.length - 1 := by
      rw [List.length_dropLast, List.length_set]
    have hk1 : k ≤ ((pool.set (rb st pool.length).1 (pool.getLastD "")).dropLast).length := by
      rw [hlen1]; omega
    obtain ⟨hle, hlen⟩ := ih ((pool.set (rb st pool.length).1 (pool.getLastD "")).dropLast)
      (rb st pool.length).2 hk1
    constructor
    · show ((pool.getD (rb st pool.length).1 "" ::
          (pySampleAux rb k _ _).1 : List String) : Multiset String) ≤ _
      rw [← Multiset.cons_coe]
      calc (pool.getD (rb st pool.length).1 "") ::ₘ
            ((pySampleAux rb k _ (rb st pool.length).2).1 : Multiset String)
          ≤ (pool.getD (rb st pool.length).1 "") ::ₘ
            (((pool.set (rb st pool.length).1 (pool.getLastD "")).dropLast : List String) :
              Multiset String) := Multiset.cons_le_cons _ hle
        _ = (pool : Multiset String) := cons_shrink_eq pool _ hj
    · show (pool.getD (rb st pool.length).1 "" :: (pySampleAux rb k _ _).1).length = k + 1
      rw [List.length_cons, hlen]

/-- CLAIM C7 support: everything `sample_prompts` returns on the
without-replacement branch. -/
lemma sample_prompts_ok {S : Type} (rb : S → Nat → Nat × S) (seedFn : ℤ → S)
    (hrb : ∀ st n, 0 < n → (rb st n).1 < n)
    (num seed : ℤ) (st0 : S) (h0 : 0 ≤ num) (h30 : num ≤ 30) :
    ∃ l st1, sample_prompts rb seedFn num seed st0 = Except.ok (l, st1) ∧
      l.length = num.toNat ∧ l.Nodup ∧ ∀ x ∈ l, x ∈ PROMPT_POOL := by
  have hlen : (PROMPT_POOL.length : ℤ) = 30 := by norm_num [prompt_pool_length]
  have hnum : num ≤ (PROMPT_POOL.length : ℤ) := by omega
  have hknat : num.toNat ≤ PROMPT_POOL.length := by
    rw [prompt_pool_length]; omega
  obtain ⟨hle, hnlen⟩ := pySampleAux_le rb hrb num.toNat PROMPT_POOL (seedFn seed) hknat
  refine ⟨(pySampleAux rb num.toNat PROMPT_POOL (seedFn seed)).1,
    (pySampleAux rb num.toNat PROMPT_POOL (seedFn seed)).2, ?_, hnlen, ?_, ?_⟩
  · rw [sample_prompts, if_pos hnum, pySample, if_pos ⟨h0, hnum⟩]
  · rw [← Multiset.coe_nodup]
    exact Multiset.nodup_of_le hle (Multiset.coe_nodup.mpr prompt_pool_nodup)
  · intro x hx
    have : x ∈ (PROMPT_POOL : Multiset String) :=
      Multiset.mem_of_le hle (by simpa using hx)
    simpa using this

/-- A concrete bound-respecting index generator used to instantiate the
abstract PRNG in witnesses. -/
def rbDemo (s n : ℕ) : ℕ × ℕ := (s % n, s + 1)

/-- A concrete seeding function used in witnesses. -/
def seedDemo (z : ℤ) : ℕ := z.toNat

lemma rbDemo_bound : ∀ (st n : ℕ), 0 < n → (rbDemo st n).1 < n :=
  fun _ _ h => Nat.mod_lt _ h

/-- CLAIM C7: for every `n ≤ 30`, `sample_prompts(n, seed)` returns `n`
pairwise-distinct prompts drawn from the fixed pool, and two calls with
identical `(n, seed)` arguments return identical sequences (the call
re-seeds the private generator, so the prior generator state is
irrelevant). -/
theorem claim_C7 {S : Type} (rb : S → Nat → Nat × S) (seedFn : ℤ → S)
    (hrb : ∀ st n, 0 < n → (rb st n).1 < n) :
    (∀ (num seed : ℤ) (st1 st2 : S),
        sample_prompts rb seedFn num seed st1
          = sample_prompts rb seedFn num seed st2) ∧
    (∀ (num seed : ℤ) (st0 : S), 0 ≤ num → num ≤ 30 →
        ∃ l st1, sample_prompts rb seedFn num seed st0 = Except.ok (l, st1) ∧
          l.length = num.toNat ∧ l.Nodup ∧ ∀ x ∈ l, x ∈ PROMPT_POOL) :=
  ⟨fun _ _ _ _ => rfl,
   fun num seed st0 h0 h30 => sample_prompts_ok rb seedFn hrb num seed st0 h0 h30⟩

/-- Witness for C7 at `n = 3`, `seed = 5` with a concrete generator. -/
theorem claim_C7_witness :
    (∀ st n, 0 < n → (rbDemo st n).1 < n) ∧
    ((0:ℤ) ≤ 3 ∧ (3:ℤ) ≤ 30) ∧
    (∃ l st1, sample_prompts rbDemo seedDemo 3 5 0 = Except.ok (l, st1) ∧
      l.length = (3:ℤ).toNat ∧ l.Nodup ∧ ∀ x ∈ l, x ∈ PROMPT_POOL) :=
  ⟨rbDemo_bound, ⟨by decide, by decide⟩,
   (claim_C7 rbDemo seedDemo rbDemo_bound).2 3 5 0 (by decide) (by decide)⟩

/-- CLAIM C8 counterexample: `sample_prompts(-1, 42)` does not return an
empty sequence; it propagates `random.sample`'s
`ValueError("Sample larger than population or is negative")`. -/
theorem claim_C8_counterexample :
    sample_prompts rbDemo seedDemo (-1) 42 0
      = Except.error "Sample larger than population or is negative" := by
  rfl

/-- CLAIM C8 (amended): `sample_prompts` has no error condition at
`n = 0` (empty sequence), but for `n < 0` it raises the `ValueError`
from `random.sample` instead of returning an empty sequence. -/
theorem claim_C8_amended {S : Type} (rb : S → Nat → Nat × S) (seedFn : ℤ → S)
    (seed : ℤ) (st0 : S) :
    (sample_prompts rb seedFn 0 seed st0 = Except.ok ([], seedFn seed)) ∧
    (∀ num : ℤ, num < 0 →
      sample_prompts rb seedFn num seed st0
        = Except.error "Sample larger than population or is negative") := by
  constructor
  · simp [sample_prompts, pySample, pySampleAux, prompt_pool_length]
  · intro num hneg
    have h1 : num ≤ (PROMPT_POOL.length : ℤ) := by
      rw [prompt_pool_length]; omega
    have h2 : ¬((0:ℤ) ≤ num ∧ num ≤ (PROMPT_POOL.length : ℤ)) := by
      intro h
      omega
    simp only [sample_prompts, pySample]
    rw [if_pos h1, if_neg h2]

/-- Witness for the amended C8 at `n = 0` and `n = -1`. -/
theorem claim_C8_amended_witness :
    (sample_prompts rbDemo seedDemo 0 42 0 = Except.ok ([], seedDemo 42)) ∧
    ((-1:ℤ) < 0 ∧ sample_prompts rbDemo seedDemo (-1) 42 0
        = Except.error "Sample larger than population or is negative") :=
  ⟨(claim_C8_amended rbDemo seedDemo 42 0).1,
   ⟨by decide, (claim_C8_amended rbDemo seedDemo 42 0).2 (-1) (by decide)⟩⟩

/-! ## pipeline.py: `run_model` -/

/-- The shapes a replicate call can return (`out` in `run_model` of
src/pipeline.py): `None`, a string, a list, a dict, an opaque result
object exposing a callable `.url()`, or anything else. -/
inductive PyVal : Type
  | none : PyVal
  | str (s : String) : PyVal
  | list (xs : List PyVal) : PyVal
  | dict (kvs : List (String × PyVal)) : PyVal
  | objWithUrl (u : String) : PyVal
  | other : PyVal

/-- `[x for x in xs if isinstance(x, str)]`. -/
def stringEntries (xs : List PyVal) : List String :=
  xs.filterMap fun v =>
    match v with
    | PyVal.str s => some s
    | _ => Option.none

/-- `key in out` plus `out[key]` for the dict shape (dict keys are
unique; the first binding wins). -/
def lookupKey (kvs : List (String × PyVal)) (k : String) : Option PyVal :=
  (kvs.find? fun kv => kv.1 == k).map (·.2)

/-- First loop over `["audio", "audio_url", "output", "url"]`: the first
key present with a string value. -/
def firstStrKey (kvs : List (String × PyVal)) : List String → Option String
  | [] => Option.none
  | k :: ks =>
    match lookupKey kvs k with
    | some (PyVal.str s) => some s
    | _ => firstStrKey kvs ks

/-- Second loop over `["audio", "output"]`: the first key present with a
list value. -/
def firstListKey (kvs : List (String × PyVal)) : List String → Option (List PyVal)
  | [] => Option.none
  | k :: ks =>
    match lookupKey kvs k with
    | some (PyVal.list xs) => some xs
    | _ => firstListKey kvs ks

/-- Output normalization of `run_model` (src/pipeline.py lines 73-92):
returns `some urls` when one of the `return` statements fires, `none`
when the attempt falls through to the next loop iteration (soft-fail,
including `out is None`). -/
def extractUrls : PyVal → Option (List String)
  | PyVal.none => Option.none
  | PyVal.str s => some [s]
  | PyVal.list xs => some (stringEntries xs)
  | PyVal.dict kvs =>
    match firstStrKey kvs ["audio", "audio_url", "output", "url"] with
    | some s => some [s]
    | Option.none =>
      match firstListKey kvs ["audio", "output"] with
      | some xs => some (stringEntries xs)
      | Option.none => Option.none
  | PyVal.objWithUrl u => some [u]
  | PyVal.other => Option.none

/-- Observable outcome of one `run_model` invocation: the returned value
or raised exception, the attempt numbers at which the remote was called,
and the `time.sleep` durations in order. -/
structure RunOut where
  result : Except String (List String)
  calls : List Nat
  sleeps : List ℚ

/-- The retry loop of `run_model`.  `call a` is the remote
`replicate_mod.run` behaviour on attempt `a` (an exception is an
`Except.error` carrying its message).  An exception updates `last_err`
and sleeps `backoff * attempt`; a successful extraction returns; a
soft-fail continues without sleeping. -/
def runModelGo (call : Nat → Except String PyVal) (backoff : ℚ) :
    List Nat → Option String → List Nat → List ℚ → RunOut
  | [], lastErr, calls, sleeps =>
    ⟨match lastErr with
      | some e => Except.error e
      | Option.none => Except.error "Model did not return a usable audio URL",
     calls, sleeps⟩
  | a :: rest, lastErr, calls, sleeps =>
    match call a with
    | Except.error e =>
      runModelGo call backoff rest (some e) (calls ++ [a])
        (sleeps ++ [backoff * (a : ℚ)])
    | Except.ok v =>
      match extractUrls v with
      | some urls => ⟨Except.ok urls, calls ++ [a], sleeps⟩
      | Option.none => runModelGo call backoff rest lastErr (calls ++ [a]) sleeps

/-- `run_model(replicate_mod, model, prompt, retries, backoff)` from
src/pipeline.py: attempts `1 .. retries` in order, then re-raises
`last_err` if set, else raises
`RuntimeError("Model did not return a usable audio URL")`. -/
def run_model (call : Nat → Except String PyVal) (retries : Nat) (backoff : ℚ) :
    RunOut :=
  runModelGo call backoff (List.range' 1 retries) Option.none [] []

/-- `True` iff attempt `a` raises an exception. -/
def attemptRaises (call : Nat → Except String PyVal) (a : Nat) : Bool :=
  match call a with
  | Except.error _ => true
  | Except.ok _ => false

/-- `True` iff attempt `a` fails, either by exception or by soft-fail
(no recognizable shape). -/
def attemptFails (call : Nat → Except String PyVal) (a : Nat) : Bool :=
  match call a with
  | Except.error _ => true
  | Except.ok v => (extractUrls v).isNone

/-! ### Lemmas about `run_model` -/

/-- The call/sleep accumulators of the retry loop are write-only. -/
lemma runModelGo_acc (call : Nat → Except String PyVal) (backoff : ℚ) :
    ∀ (l : List Nat) (le : Option String) (cs : List Nat) (ss : List ℚ),
      (runModelGo call backoff l le cs ss).result
          = (runModelGo call backoff l le [] []).result ∧
      (runModelGo call backoff l le cs ss).calls
          = cs ++ (runModelGo call backoff l le [] []).calls ∧
      (runModelGo call backoff l le cs ss).sleeps
          = ss ++ (runModelGo call backoff l le [] []).sleeps := by
  intro l
  induction l with
  | nil => intro le cs ss; simp [runModelGo]
  | cons a rest ih =>
    intro le cs ss
    cases hc : call a with
    | error e =>
      simp only [runModelGo, hc, List.nil_append]
      obtain ⟨h1, h2, h3⟩ := ih (some e) (cs ++ [a]) (ss ++ [backoff * (a : ℚ)])
      obtain ⟨h1', h2', h3'⟩ := ih (some e) [a] [backoff * (a : ℚ)]
      exact ⟨h1.trans h1'.symm, by rw [h2, h2']; simp, by rw [h3, h3']; simp⟩
    | ok v =>
      cases hx : extractUrls v with
      | some urls => simp [runModelGo, hc, hx]
      | none =>
        simp only [runModelGo, hc, hx, List.nil_append]
        obtain ⟨h1, h2, h3⟩ := ih le (cs ++ [a]) ss
        obtain ⟨h1', h2', h3'⟩ := ih le [a] []
        exact ⟨h1.trans h1'.symm, by rw [h2, h2']; simp, by rw [h3, h3']; simp⟩

/-- Exactly the attempts that raised an exception contribute a sleep of
`backoff * attempt`, in order. -/
lemma runModelGo_sleeps (call : Nat → Except String PyVal) (backoff : ℚ) :
    ∀ (l : List Nat) (le : Option String),
      (runModelGo call backoff l le [] []).sleeps
        = ((runModelGo call backoff l le [] []).calls.filter (attemptRaises call)).map
            (fun a => backoff * (a : ℚ)) := by
  intro l
  induction l with
  | nil => intro le; simp [runModelGo]
  | cons a rest ih =>
    intro le
    cases hc : call a with
    | error e =>
      have hr : attemptRaises call a = true := by simp [attemptRaises, hc]
      simp only [runModelGo, hc, List.nil_append]
      obtain ⟨_, h2, h3⟩ := runModelGo_acc call backoff rest (some e) [a] [backoff * (a : ℚ)]
      rw [h2, h3, ih (some e)]
      simp [List.filter_cons, hr]
    | ok v =>
      cases hx : extractUrls v with
      | some urls =>
        have hr : attemptRaises call a = false := by simp [attemptRaises, hc]
        simp [runModelGo, hc, hx, List.filter_cons, hr]
      | none =>
        have hr : attemptRaises call a = false := by simp [attemptRaises, hc]
        simp only [runModelGo, hc, hx, List.nil_append]
        obtain ⟨_, h2, h3⟩ := runModelGo_acc call backoff rest le [a] []
        rw [h2, h3, ih le]
        simp [List.filter_cons, hr]

/-- At most one remote call per listed attempt. -/
lemma runModelGo_calls_length (call : Nat → Except String PyVal) (backoff : ℚ) :
    ∀ (l : List Nat) (le : Option String) (cs : List Nat) (ss : List ℚ),
      (runModelGo call backoff l le cs ss).calls.length ≤ cs.length + l.length := by
  intro l
  induction l with
  | nil => intro le cs ss; simp [runModelGo]
  | cons a rest ih =>
    intro le cs ss
    cases hc : call a with
    | error e =>
      simp only [runModelGo, hc]
      have := ih (some e) (cs ++ [a]) (ss ++ [backoff * (a : ℚ)])
      simp only [List.length_append, List.length_singleton] at this
      simpa [List.length_cons] using this.trans (by omega)
    | ok v =>
      cases hx : extractUrls v with
      | some urls =>
        simp only [runModelGo, hc, hx, List.length_append, List.length_cons,
          List.length_nil]
        omega
      | none =>
        simp only [runModelGo, hc, hx]
        have := ih le (cs ++ [a]) ss
        simp only [List.length_append, List.length_singleton] at this
        simpa [List.length_cons] using this.trans (by omega)

/-- If every attempt in `l` raises and the final attempt `b` raises `e`,
the loop re-raises `e`. -/
lemma runModelGo_all_raise (call : Nat → Except String PyVal) (backoff : ℚ) :
    ∀ (l : List Nat) (b : Nat) (e : String) (le : Option String)
      (cs : List Nat) (ss : List ℚ),
      (∀ a ∈ l, ∃ e', call a = Except.error e') →
      call b = Except.error e →
      (runModelGo call backoff (l ++ [b]) le cs ss).result = Except.error e := by
  intro l
  induction l with
  | nil =>
    intro b e le cs ss _ hb
    simp [runModelGo, hb]
  | cons a rest ih =>
    intro b e le cs ss hall hb
    obtain ⟨e', he'⟩ := hall a (List.mem_cons_self a rest)
    simp only [List.cons_append, runModelGo, he']
    exact ih b e (some e') _ _ (fun x hx => hall x (List.mem_cons_of_mem a hx)) hb

/-- If every attempt in `l` soft-fails, `last_err` stays unset and the
generic error is raised. -/
lemma runModelGo_all_soft (call : Nat → Except String PyVal) (backoff : ℚ) :
    ∀ (l : List Nat) (cs : List Nat) (ss : List ℚ),
      (∀ a ∈ l, ∃ v, call a = Except.ok v ∧ extractUrls v = Option.none) →
      (runModelGo call backoff l Option.none cs ss).result
        = Except.error "Model did not return a usable audio URL" := by
  intro l
  induction l with
  | nil => intro cs ss _; simp [runModelGo]
  | cons a rest ih =>
    intro cs ss hall
    obtain ⟨v, hv, hx⟩ := hall a (List.mem_cons_self a rest)
    simp only [runModelGo, hv, hx]
    exact ih _ _ fun x hxm => hall x (List.mem_cons_of_mem a hxm)

lemma firstStrKey_none (kvs : List (String × PyVal)) :
    ∀ (ks : List String),
      (∀ k ∈ ks, ∀ s, lookupKey kvs k ≠ some (PyVal.str s)) →
      firstStrKey kvs ks = Option.none := by
  intro ks
  induction ks with
  | nil => intro _; rfl
  | cons k ks ih =>
    intro h
    have hk := h k (List.mem_cons_self k ks)
    have hrest := ih fun x hx s => h x (List.mem_cons_of_mem k hx) s
    cases hlk : lookupKey kvs k with
    | none => simpa [firstStrKey, hlk] using hrest
    | some v =>
      cases v with
      | str s => exact absurd hlk (hk s)
      | none => simpa [firstStrKey, hlk] using hrest
      | list xs => simpa [firstStrKey, hlk] using hrest
      | dict kvs2 => simpa [firstStrKey, hlk] using hrest
      | objWithUrl u => simpa [firstStrKey, hlk] using hrest
      | other => simpa [firstStrKey, hlk] using hrest

lemma firstListKey_none (kvs : List (String × PyVal)) :
    ∀ (ks : List String),
      (∀ k ∈ ks, ∀ xs, lookupKey kvs k ≠ some (PyVal.list xs)) →
      firstListKey kvs ks = Option.none := by
  intro ks
  induction ks with
  | nil => intro _; rfl
  | cons k ks ih =>
    intro h
    have hk := h k (List.mem_cons_self k ks)
    have hrest := ih fun x hx s => h x (List.mem_cons_of_mem k hx) s
    cases hlk : lookupKey kvs k with
    | none => simpa [firstListKey, hlk] using hrest
    | some v =>
      cases v with
      | list xs => exact absurd hlk (hk xs)
      | str s => simpa [firstListKey, hlk] using hrest
      | none => simpa [firstListKey, hlk] using hrest
      | dict kvs2 => simpa [firstListKey, hlk] using hrest
      | objWithUrl u => simpa [firstListKey, hlk] using hrest
      | other => simpa [firstListKey, hlk] using hrest

/-- CLAIM C4: output normalization tries the response shapes in the
code's fixed priority order — `None` and unrecognized shapes soft-fail;
a bare string becomes a singleton list; a list is filtered to its string
entries; a dict is searched for a string value under
`audio/audio_url/output/url` first and only then for a list value under
`audio/output`; an object with a callable `url()` yields that locator —
and a soft-fail proceeds to the next attempt rather than erroring. -/
theorem claim_C4 :
    (extractUrls PyVal.none = Option.none) ∧
    (∀ s, extractUrls (PyVal.str s) = some [s]) ∧
    (∀ xs, extractUrls (PyVal.list xs) = some (stringEntries xs)) ∧
    (∀ kvs s, lookupKey kvs "audio" = some (PyVal.str s) →
        extractUrls (PyVal.dict kvs) = some [s]) ∧
    (∀ kvs xs,
        (∀ k ∈ ["audio", "audio_url", "output", "url"], ∀ s,
            lookupKey kvs k ≠ some (PyVal.str s)) →
        lookupKey kvs "audio" = some (PyVal.list xs) →
        extractUrls (PyVal.dict kvs) = some (stringEntries xs)) ∧
    (∀ kvs,
        (∀ k ∈ ["audio", "audio_url", "output", "url"], ∀ s,
            lookupKey kvs k ≠ some (PyVal.str s)) →
        (∀ k ∈ ["audio", "output"], ∀ xs,
            lookupKey kvs k ≠ some (PyVal.list xs)) →
        extractUrls (PyVal.dict kvs) = Option.none) ∧
    (∀ u, extractUrls (PyVal.objWithUrl u) = some [u]) ∧
    (∀ (call : Nat → Except String PyVal) (backoff : ℚ) (a : Nat)
        (rest : List Nat) (le : Option String) (cs : List Nat) (ss : List ℚ)
        (v : PyVal), call a = Except.ok v → extractUrls v = Option.none →
        runModelGo call backoff (a :: rest) le cs ss
          = runModelGo call backoff rest le (cs ++ [a]) ss) := by
  refine ⟨rfl, fun s => rfl, fun xs => rfl, ?_, ?_, ?_, fun u => rfl, ?_⟩
  · intro kvs s h
    simp [extractUrls, firstStrKey, h]
  · intro kvs xs hstr hlist
    rw [extractUrls, firstStrKey_none kvs _ hstr]
    simp [firstListKey, hlist]
  · intro kvs hstr hlist
    rw [extractUrls, firstStrKey_none kvs _ hstr, firstListKey_none kvs _ hlist]
  · intro call backoff a rest le cs ss v hv hx
    simp [runModelGo, hv, hx]

/-- Witness for C4 on concrete dict shapes: a string under `output`
beats a list under `audio`; a dict with no recognized key soft-fails. -/
theorem claim_C4_witness :
    (extractUrls (PyVal.dict [("audio", PyVal.str "u1")]) = some ["u1"]) ∧
    (extractUrls (PyVal.dict [("audio", PyVal.list [PyVal.str "u2"])])
        = some (stringEntries [PyVal.str "u2"])) ∧
    (extractUrls (PyVal.dict [("kind", PyVal.str "x")]) = Option.none) ∧
    (runModelGo (fun _ => Except.ok PyVal.other) 2 [1, 2] Option.none [] []
        = runModelGo (fun _ => Except.ok PyVal.other) 2 [2] Option.none [1] []) :=
  ⟨claim_C4.2.2.2.1 [("audio", PyVal.str "u1")] "u1" rfl,
   claim_C4.2.2.2.2.1 [("audio", PyVal.list [PyVal.str "u2"])] [PyVal.str "u2"]
     (by intro k hk s; fin_cases hk <;> simp [lookupKey]) rfl,
   claim_C4.2.2.2.2.2.1 [("kind", PyVal.str "x")]
     (by intro k hk s; fin_cases hk <;> simp [lookupKey])
     (by intro k hk xs; fin_cases hk <;> simp [lookupKey]),
   claim_C4.2.2.2.2.2.2.2 (fun _ => Except.ok PyVal.other) 2 1 [2] Option.none [] []
     PyVal.other rfl rfl⟩

/-- Modelled from the spec: the sleep schedule claim C2 asserts — every
failed attempt (transport exception or soft-fail) is followed by a sleep
of `backoff * attempt_number`, except that no sleep follows the final
attempt made. -/
def c2ClaimedSleeps (backoff : ℚ) (failedAttempts : List Nat)
    (finalAttempt : Nat) : List ℚ :=
  (failedAttempts.filter fun a => a ≠ finalAttempt).map fun a => backoff * (a : ℚ)

/-- A remote that raises on every attempt. -/
def callAllRaise : Nat → Except String PyVal := fun _ => Except.error "boom"

/-- A remote that returns `None` (a soft-fail) on every attempt. -/
def callAllSoft : Nat → Except String PyVal := fun _ => Except.ok PyVal.none

/-- CLAIM C2 counterexample.  With `retries = 1`, `backoff = 1` and a
remote that always raises, the single (hence final) failed attempt is
followed by a sleep of `1`, though the claim schedules no sleep after
the final attempt; with `retries = 2` and a remote that always
soft-fails, no sleep at all occurs, though the claim schedules one after
the failed first attempt. -/
theorem claim_C2_counterexample :
    ((run_model callAllRaise 1 1).calls.filter (attemptFails callAllRaise) = [1] ∧
      (run_model callAllRaise 1 1).sleeps = [1] ∧
      c2ClaimedSleeps 1 [1] 1 = []) ∧
    ((run_model callAllSoft 2 1).calls.filter (attemptFails callAllSoft) = [1, 2] ∧
      (run_model callAllSoft 2 1).sleeps = [] ∧
      c2ClaimedSleeps 1 [1, 2] 2 = [1]) := by
  refine ⟨⟨rfl, ?_, rfl⟩, ⟨rfl, rfl, ?_⟩⟩
  · show [(1 : ℚ) * ((1 : ℕ) : ℚ)] = [1]
    norm_num
  · show [(1 : ℚ) * ((1 : ℕ) : ℚ)] = [1]
    norm_num

/-- CLAIM C2 (amended): an attempt that fails with an exception —
including the final attempt — is followed by a sleep of
`backoff * attempt_number`; an attempt that soft-fails without an
exception is not followed by any sleep.  Equivalently, the sleep trace
is exactly the raising attempts mapped to `backoff * attempt`. -/
theorem claim_C2_amended (call : Nat → Except String PyVal) (retries : Nat)
    (backoff : ℚ) :
    (run_model call retries backoff).sleeps
      = ((run_model call retries backoff).calls.filter (attemptRaises call)).map
          (fun a => backoff * (a : ℚ)) :=
  runModelGo_sleeps call backoff (List.range' 1 retries) Option.none

/-- CLAIM C3: `run_model` makes at most `retries` remote calls; if every
attempt raises, the loop re-raises the exception of the final attempt;
if every attempt soft-fails, it raises the generic
`RuntimeError("Model did not return a usable audio URL")` (the spec's
`GenerationError`). -/
theorem claim_C3 (call : Nat → Except String PyVal) (retries : Nat) (backoff : ℚ) :
    ((run_model call retries backoff).calls.length ≤ retries) ∧
    (∀ e : String, 1 ≤ retries →
      (∀ a, 1 ≤ a → a ≤ retries → ∃ e', call a = Except.error e') →
      call retries = Except.error e →
      (run_model call retries backoff).result = Except.error e) ∧
    ((∀ a, 1 ≤ a → a ≤ retries → ∃ v, call a = Except.ok v ∧
        extractUrls v = Option.none) →
      (run_model call retries backoff).result
        = Except.error "Model did not return a usable audio URL") := by
  refine ⟨?_, ?_, ?_⟩
  · have h := runModelGo_calls_length call backoff (List.range' 1 retries)
      Option.none [] []
    simpa [run_model, List.length_range'] using h
  · intro e hr hall hlast
    have hsplit : List.range' 1 retries
        = List.range' 1 (retries - 1) ++ [retries] := by
      have : retries = (retries - 1) + 1 := by omega
      rw [this, List.range'_concat]
      congr 2
      omega
    rw [run_model, hsplit]
    apply runModelGo_all_raise
    · intro a ha
      rw [List.mem_range'] at ha
      obtain ⟨i, hi, hai⟩ := ha
      exact hall a (by omega) (by omega)
    · exact hlast
  · intro hall
    rw [run_model]
    apply runModelGo_all_soft
    intro a ha
    rw [List.mem_range'] at ha
    obtain ⟨i, hi, hai⟩ := ha
    exact hall a (by omega) (by omega)

/-- Witness for C3: three always-raising attempts re-raise "boom" after
three calls; three always-soft-failing attempts raise the generic error. -/
theorem claim_C3_witness :
    ((run_model callAllRaise 3 2).calls.length ≤ 3) ∧
    ((run_model callAllRaise 3 2).result = Except.error "boom") ∧
    ((run_model callAllSoft 3 2).result
        = Except.error "Model did not return a usable audio URL") :=
  ⟨(claim_C3 callAllRaise 3 2).1,
   (claim_C3 callAllRaise 3 2).2.1 "boom" (by decide)
     (fun a _ _ => ⟨"boom", rfl⟩) rfl,
   (claim_C3 callAllSoft 3 2).2.2 (fun a _ _ => ⟨PyVal.none, rfl, rfl⟩)⟩

/-- A remote whose first attempt returns an empty list. -/
def callEmptyList : Nat → Except String PyVal := fun _ => Except.ok (PyVal.list [])

/-- A remote whose first attempt returns a list with no string entries. -/
def callNonStrList : Nat → Except String PyVal :=
  fun _ => Except.ok (PyVal.list [PyVal.none, PyVal.dict []])

/-- The orchestrator's guard after a generation (src/pipeline.py lines
170-173): `if not urls: raise RuntimeError(...)`, else download the
first URL only. -/
def mainAcquireGate (urls : List String) : Except String String :=
  match urls with
  | [] => Except.error "No audio URLs returned by the model"
  | u :: _ => Except.ok u

/-- CLAIM C9: a remote response that is an empty list, or a list with no
string entries, makes `run_model` return `ok []` on that very attempt —
one call, no sleeps, no exception — and only the orchestrator's guard
turns the empty result into a fatal error. -/
theorem claim_C9 :
    ((run_model callEmptyList 3 2).result = Except.ok [] ∧
      (run_model callEmptyList 3 2).calls = [1] ∧
      (run_model callEmptyList 3 2).sleeps = []) ∧
    ((run_model callNonStrList 3 2).result = Except.ok [] ∧
      (run_model callNonStrList 3 2).calls = [1] ∧
      (run_model callNonStrList 3 2).sleeps = []) ∧
    mainAcquireGate [] = Except.error "No audio URLs returned by the model" :=
  ⟨⟨rfl, rfl, rfl⟩, ⟨rfl, rfl, rfl⟩, rfl⟩

/-! ## audio_utils.py: `compute_audio_features` -/

/-- The six acoustic descriptors returned by `compute_audio_features`. -/
structure Features where
  duration_seconds : ℚ
  tempo_bpm : ℚ
  rms_mean : ℚ
  spectral_centroid_mean : ℚ
  zero_crossing_rate_mean : ℚ
  mfcc1_mean : ℚ
deriving DecidableEq

/-- `try: ... except Exception: 0.0` around a single descriptor. -/
def descriptorOr0 (f : List ℚ → Except String ℚ) (y : List ℚ) : ℚ :=
  match f y with
  | Except.ok t => t
  | Except.error _ => 0

/-- `compute_audio_features(wav_path)` from src/audio_utils.py, with the
decoded buffer `y` (at the fixed analysis rate `sr`) and the librosa
descriptor computations abstracted as fallible parameters.  An empty
buffer short-circuits to the all-zero vector; the duration is
`len(y)/sr`; only the tempo computation is wrapped in `try/except`; an
exception in the RMS, centroid, zero-crossing or MFCC computation
propagates. -/
def compute_audio_features (sr : ℕ)
    (tempoF rmsF centF zcrF mfccF : List ℚ → Except String ℚ)
    (y : List ℚ) : Except String Features :=
  if y.length = 0 then
    Except.ok ⟨0, 0, 0, 0, 0, 0⟩
  else
    let duration : ℚ := (y.length : ℚ) / (sr : ℚ)
    let tempo : ℚ := descriptorOr0 tempoF y
    match rmsF y with
    | Except.error e => Except.error e
    | Except.ok r =>
      match centF y with
      | Except.error e => Except.error e
      | Except.ok c =>
        match zcrF y with
        | Except.error e => Except.error e
        | Except.ok z =>
          match mfccF y with
          | Except.error e => Except.error e
          | Except.ok m => Except.ok ⟨duration, tempo, r, c, z, m⟩

/-- Modelled from the spec: claim C5's reading of the extractor, in
which every one of the six descriptor computations is isolated and a
failure degrades only its own field to 0.0. -/
def compute_audio_features_isolated (sr : ℕ)
    (tempoF rmsF centF zcrF mfccF : List ℚ → Except String ℚ)
    (y : List ℚ) : Except String Features :=
  if y.length = 0 then
    Except.ok ⟨0, 0, 0, 0, 0, 0⟩
  else
    Except.ok ⟨(y.length : ℚ) / (sr : ℚ), descriptorOr0 tempoF y,
      descriptorOr0 rmsF y, descriptorOr0 centF y, descriptorOr0 zcrF y,
      descriptorOr0 mfccF y⟩

/-- A descriptor computation that raises. -/
def rmsBoom : List ℚ → Except String ℚ := fun _ => Except.error "rms boom"

/-- A descriptor computation that succeeds with value 1. -/
def descOk1 : List ℚ → Except String ℚ := fun _ => Except.ok 1

/-- CLAIM C5 counterexample: on a non-empty buffer, a failure in the RMS
descriptor aborts the whole feature computation instead of degrading
only `rms_mean` to 0.0 as the claim (and the isolated model of it)
requires. -/
theorem claim_C5_counterexample :
    compute_audio_features 22050 descOk1 rmsBoom descOk1 descOk1 descOk1 [1]
      = Except.error "rms boom" ∧
    compute_audio_features_isolated 22050 descOk1 rmsBoom descOk1 descOk1 descOk1 [1]
      = Except.ok ⟨1 / 22050, 1, 0, 1, 1, 1⟩ ∧
    compute_audio_features 22050 descOk1 rmsBoom descOk1 descOk1 descOk1 [1]
      ≠ compute_audio_features_isolated 22050 descOk1 rmsBoom descOk1 descOk1
          descOk1 [1] := by
  refine ⟨rfl, ?_, ?_⟩
  · show Except.ok (⟨(1 : ℚ) / 22050, 1, 0, 1, 1, 1⟩ : Features)
        = Except.ok ⟨1 / 22050, 1, 0, 1, 1, 1⟩
    rfl
  · intro h
    rw [show compute_audio_features 22050 descOk1 rmsBoom descOk1 descOk1 descOk1 [1]
          = Except.error "rms boom" from rfl] at h
    exact Except.noConfusion h

/-- CLAIM C5 (amended): on a non-empty buffer, only the tempo descriptor
is isolated — a tempo failure degrades `tempo_bpm` to 0.0 while the
other five fields are still computed and all six are present — whereas a
failure in any of the RMS, spectral-centroid, zero-crossing-rate or
MFCC computations aborts the whole extraction and propagates its
exception. -/
theorem claim_C5_amended (sr : ℕ)
    (tempoF rmsF centF zcrF mfccF : List ℚ → Except String ℚ)
    (y : List ℚ) (hne : y.length ≠ 0) :
    (∀ r c z m : ℚ, rmsF y = Except.ok r → centF y = Except.ok c →
        zcrF y = Except.ok z → mfccF y = Except.ok m →
        compute_audio_features sr tempoF rmsF centF zcrF mfccF y
          = Except.ok ⟨(y.length : ℚ) / (sr : ℚ), descriptorOr0 tempoF y,
              r, c, z, m⟩) ∧
    (∀ e : String, rmsF y = Except.error e →
        compute_audio_features sr tempoF rmsF centF zcrF mfccF y
          = Except.error e) ∧
    (∀ (r : ℚ) (e : String), rmsF y = Except.ok r →
        centF y = Except.error e →
        compute_audio_features sr tempoF rmsF centF zcrF mfccF y
          = Except.error e) ∧
    (∀ (r c : ℚ) (e : String), rmsF y = Except.ok r →
        centF y = Except.ok c → zcrF y = Except.error e →
        compute_audio_features sr tempoF rmsF centF zcrF mfccF y
          = Except.error e) ∧
    (∀ (r c z : ℚ) (e : String), rmsF y = Except.ok r →
        centF y = Except.ok c → zcrF y = Except.ok z →
        mfccF y = Except.error e →
        compute_audio_features sr tempoF rmsF centF zcrF mfccF y
          = Except.error e) := by
  refine ⟨?_, ?_, ?_, ?_, ?_⟩
  · intro r c z m hr hc hz hm
    simp [compute_audio_features, hne, hr, hc, hz, hm]
  · intro e he
    simp [compute_audio_features, hne, he]
  · intro r e hr he
    simp [compute_audio_features, hne, hr, he]
  · intro r c e hr hc he
    simp [compute_audio_features, hne, hr, hc, he]
  · intro r c z e hr hc hz he
    simp [compute_audio_features, hne, hr, hc, hz, he]

/-- A tempo estimator that finds no beats and raises. -/
def tempoNoBeats : List ℚ → Except String ℚ := fun _ => Except.error "no beats"

/-- Witness for the amended C5 on the buffer `[1, 1]`: a failing tempo
estimator degrades only `tempo_bpm` to 0, while a failure in each of
the RMS, centroid, zero-crossing-rate and MFCC computations aborts with
that failure's exception. -/
theorem claim_C5_amended_witness :
    (([1, 1] : List ℚ).length ≠ 0) ∧
    (compute_audio_features 22050 tempoNoBeats (fun _ => Except.ok 2)
        (fun _ => Except.ok 3) (fun _ => Except.ok 4) (fun _ => Except.ok 5)
        [1, 1]
      = Except.ok ⟨((([1, 1] : List ℚ).length : ℚ)) / (22050 : ℚ),
          descriptorOr0 tempoNoBeats [1, 1], 2, 3, 4, 5⟩) ∧
    (compute_audio_features 22050 tempoNoBeats (fun _ => Except.error "rms down")
        (fun _ => Except.ok 3) (fun _ => Except.ok 4) (fun _ => Except.ok 5)
        [1, 1]
      = Except.error "rms down") ∧
    (compute_audio_features 22050 tempoNoBeats (fun _ => Except.ok 2)
        (fun _ => Except.error "cent down") (fun _ => Except.ok 4)
        (fun _ => Except.ok 5) [1, 1]
      = Except.error "cent down") ∧
    (compute_audio_features 22050 tempoNoBeats (fun _ => Except.ok 2)
        (fun _ => Except.ok 3) (fun _ => Except.error "zcr down")
        (fun _ => Except.ok 5) [1, 1]
      = Except.error "zcr down") ∧
    (compute_audio_features 22050 tempoNoBeats (fun _ => Except.ok 2)
        (fun _ => Except.ok 3) (fun _ => Except.ok 4)
        (fun _ => Except.error "mfcc down") [1, 1]
      = Except.error "mfcc down") :=
  ⟨by decide,
   (claim_C5_amended 22050 tempoNoBeats (fun _ => Except.ok 2)
      (fun _ => Except.ok 3) (fun _ => Except.ok 4) (fun _ => Except.ok 5)
      [1, 1] (by decide)).1 2 3 4 5 rfl rfl rfl rfl,
   (claim_C5_amended 22050 tempoNoBeats (fun _ => Except.error "rms down")
      (fun _ => Except.ok 3) (fun _ => Except.ok 4) (fun _ => Except.ok 5)
      [1, 1] (by decide)).2.1 "rms down" rfl,
   (claim_C5_amended 22050 tempoNoBeats (fun _ => Except.ok 2)
      (fun _ => Except.error "cent down") (fun _ => Except.ok 4)
      (fun _ => Except.ok 5) [1, 1] (by decide)).2.2.1 2 "cent down" rfl rfl,
   (claim_C5_amended 22050 tempoNoBeats (fun _ => Except.ok 2)
      (fun _ => Except.ok 3) (fun _ => Except.error "zcr down")
      (fun _ => Except.ok 5) [1, 1] (by decide)).2.2.2.1 2 3 "zcr down"
     rfl rfl rfl,
   (claim_C5_amended 22050 tempoNoBeats (fun _ => Except.ok 2)
      (fun _ => Except.ok 3) (fun _ => Except.ok 4)
      (fun _ => Except.error "mfcc down") [1, 1] (by decide)).2.2.2.2 2 3 4
     "mfcc down" rfl rfl rfl rfl⟩

/-! ## pipeline.py: orchestrator resume logic (`main`) -/

/-- Zero-padded `f"{n:02d}"`. -/
def pad2 (n : ℕ) : String := if n < 10 then "0" ++ toString n else toString n

/-- `os.path.join("outputs", "audio", f"song_{idx+1:02d}.wav")`. -/
def audioPath (idx : ℕ) : String :=
  "outputs/audio/" ++ ("song_" ++ pad2 (idx + 1) ++ ".wav")

/-- Loading of the prior ledger in `main`: read only when the CSV exists
and `--force` is not set; an unreadable CSV degrades to no ledger.  A
ledger row is abstracted to its `(audio_path, generation_time_seconds)`
columns. -/
def loadExisting (csvExists force readable : Bool)
    (rows : List (String × ℚ)) : Option (List (String × ℚ)) :=
  if csvExists && !force then (if readable then some rows else none)
  else Option.none

/-- Per-track skip-or-generate step of `main` (src/pipeline.py lines
163-188).  Returns (whether the model was invoked, the generation time
recorded in the row, the recomputed features, the recomputed snippet).
When a ledger row matches the deterministic audio path, the model is not
invoked and the first matching row's `generation_time_seconds` is
reused; features and snippet are recomputed either way. -/
def processTrack {F Sn : Type} (existing : Option (List (String × ℚ)))
    (audio_path : String) (genTime : ℚ) (featuresOf : String → F)
    (snippetOf : String → Sn) : Bool × ℚ × F × Sn :=
  match existing with
  | some rows =>
    if rows.any (fun r => r.1 == audio_path) then
      (false, ((rows.filter (fun r => r.1 == audio_path)).headD ("", 0)).2,
        featuresOf audio_path, snippetOf audio_path)
    else
      (true, genTime, featuresOf audio_path, snippetOf audio_path)
  | Option.none => (true, genTime, featuresOf audio_path, snippetOf audio_path)

/-- CLAIM C6: with `force = False` and a loaded ledger whose first row
matching track `k`'s deterministic audio path records generation time
`t`, the orchestrator does not invoke the model for `k`, copies `t`
forward, and still recomputes features and snippet from the current
extractor and selector (so their values are whatever those now
produce). -/
theorem claim_C6 {F Sn : Type} (rows : List (String × ℚ)) (k : ℕ) (t g : ℚ)
    (featuresOf : String → F) (snippetOf : String → Sn)
    (hmatch : (rows.filter (fun r => r.1 == audioPath k)).head?
        = some (audioPath k, t)) :
    processTrack (loadExisting true false true rows) (audioPath k) g
        featuresOf snippetOf
      = (false, t, featuresOf (audioPath k), snippetOf (audioPath k)) := by
  have hload : loadExisting true false true rows = some rows := rfl
  have hmem : (audioPath k, t) ∈ rows.filter (fun r => r.1 == audioPath k) := by
    cases hl : rows.filter (fun r => r.1 == audioPath k) with
    | nil => rw [hl] at hmatch; simp at hmatch
    | cons a tail =>
      rw [hl] at hmatch
      simp at hmatch
      rw [← hmatch]
      exact List.mem_cons_self a tail
  rw [List.mem_filter] at hmem
  have hany : rows.any (fun r => r.1 == audioPath k) = true :=
    List.any_eq_true.mpr ⟨(audioPath k, t), hmem.1, hmem.2⟩
  have hhead : ((rows.filter (fun r => r.1 == audioPath k)).headD ("", 0)).2 = t := by
    rw [List.headD_eq_head?, hmatch]
    rfl
  rw [hload, processTrack, if_pos hany, hhead]

/-- Witness for C6 on a one-row ledger for track 0 with recorded
generation time 5. -/
theorem claim_C6_witness :
    (([(audioPath 0, (5 : ℚ))].filter (fun r => r.1 == audioPath 0)).head?
        = some (audioPath 0, 5)) ∧
    processTrack (loadExisting true false true [(audioPath 0, 5)]) (audioPath 0)
        99 String.length (fun p => p)
      = (false, 5, String.length (audioPath 0), audioPath 0) :=
  ⟨by decide,
   claim_C6 [(audioPath 0, 5)] 0 5 99 String.length (fun p => p) (by decide)⟩

/-! ## audio_utils.py: `make_snippet` and `_find_highest_rms_window_ms`

Float arithmetic of the source is modelled exactly: `int(x)` truncations
on the nonnegative quantities involved become `ℕ` floor division, and
the comparison of `np.sqrt(np.mean(segment**2))` values is modelled by
comparing mean squares (the square root is strictly monotone on
nonnegative reals, and the `-1.0` sentinel lies below both domains). -/

/-- Sum of squared samples. -/
def sumSq (l : List ℚ) : ℚ := (l.map fun x => x * x).sum

/-- Squared RMS energy `np.mean(segment**2)` of a window (`0` on an empty
window, as in the source's guard). -/
def rmsSq (seg : List ℚ) : ℚ := sumSq seg / (seg.length : ℚ)

/-- `y[start : start + window_samples]`. -/
def segAt (y : List ℚ) (start ws : ℕ) : List ℚ := (y.drop start).take ws

/-- `range(0, len(y) - window_samples + 1, hop_samples)` for
`ws ≤ n`, `0 < hop`: arithmetic progression of window starts. -/
def scanStarts (n ws hop : ℕ) : List ℕ :=
  List.range' 0 ((n - ws + hop) / hop) hop

/-- The `best_rms`/`best_start` fold of `_find_highest_rms_window_ms`:
strictly greater energy replaces the incumbent. -/
def bestStartAux (f : ℕ → ℚ) (starts : List ℕ) (acc : ℕ × ℚ) : ℕ × ℚ :=
  starts.foldl (fun a s => if a.2 < f s then (s, f s) else a) acc

/-- Start (in samples) selected by the scan, from `best_start = 0`,
`best_rms = -1.0`. -/
def bestStart (y : List ℚ) (ws hop : ℕ) : ℕ :=
  (bestStartAux (fun s => rmsSq (segAt y s ws)) (scanStarts y.length ws hop)
    (0, -1)).1

/-- `_find_highest_rms_window_ms(path, window_ms, sr)` from
src/audio_utils.py, with the decoded buffer `y` of the file at `path`.
`window_samples = int(sr * (window_ms / 1000.0))`,
`hop_samples = int(sr * 0.05)`; degenerate windows return `0`; else the
highest-RMS hop-aligned start, converted to milliseconds by
`int(1000.0 * best_start / sr)`. -/
def find_highest_rms_window_ms (y : List ℚ) (window_ms : ℕ) (sr : ℕ) : ℕ :=
  if y.length = 0 then 0
  else
    let window_samples := sr * window_ms / 1000
    let hop_samples := sr * 5 / 100
    if window_samples = 0 ∨ y.length ≤ window_samples then 0
    else 1000 * bestStart y window_samples hop_samples / sr

/-- `math.ceil(snippet_ms / max(1, length_ms))`. -/
def loopCount (length_ms snippet_ms : ℕ) : ℕ :=
  (snippet_ms + max 1 length_ms - 1) / max 1 length_ms

/-- The looped audio of `make_snippet`: `audio * loops` when the source
is shorter than the snippet, else the source itself.  `len(audio)` in
pydub is the duration in integer milliseconds, `1000 * samples / sr`. -/
def loopedAudio (y : List ℚ) (sr snippet_ms : ℕ) : List ℚ :=
  let length_ms := 1000 * y.length / sr
  if length_ms < snippet_ms then
    (List.replicate (loopCount length_ms snippet_ms) y).flatten
  else y

/-- `len(audio)` after the loop-to-length step. -/
def loopedLengthMs (y : List ℚ) (sr snippet_ms : ℕ) : ℕ :=
  1000 * (loopedAudio y sr snippet_ms).length / sr

/-- Start offset (ms) chosen by the `highest_rms` branch of
`make_snippet` (src/audio_utils.py lines 108-112): the scan runs on the
source file `y`, then
`int(max(0, min(start_ms, max(0, length_ms - snippet_ms))))` clamps
against the post-loop length. -/
def make_snippet_start_ms (y : List ℚ) (sr snippet_ms : ℕ) : ℕ :=
  min (find_highest_rms_window_ms y snippet_ms sr)
    (loopedLengthMs y sr snippet_ms - snippet_ms)

/-! ### Lemmas about the energy scan -/

lemma sumSq_append (l₁ l₂ : List ℚ) : sumSq (l₁ ++ l₂) = sumSq l₁ + sumSq l₂ := by
  simp [sumSq, List.map_append, List.sum_append]

lemma sumSq_replicate_zero (n : ℕ) : sumSq (List.replicate n (0 : ℚ)) = 0 := by
  simp [sumSq, List.map_replicate, List.sum_replicate]

lemma sumSq_nonneg (l : List ℚ) : 0 ≤ sumSq l := by
  apply List.sum_nonneg
  intro x hx
  rw [List.mem_map] at hx
  obtain ⟨a, _, rfl⟩ := hx
  exact mul_self_nonneg a

lemma rmsSq_nonneg (l : List ℚ) : 0 ≤ rmsSq l :=
  div_nonneg (sumSq_nonneg l) (by positivity)

/-- Behaviour of the strict-improvement fold, started at an element `b`
below every scanned start: the final value is the value of the final
start, the incumbent is only displaced by strictly larger values, and
first-seen wins ties. -/
lemma bestStartAux_spec (f : ℕ → ℚ) :
    ∀ (l : List ℕ) (b : ℕ), List.Sorted (· < ·) (b :: l) →
      (bestStartAux f l (b, f b)).2 = f (bestStartAux f l (b, f b)).1 ∧
      ((bestStartAux f l (b, f b)).1 = b ∨ (bestStartAux f l (b, f b)).1 ∈ l) ∧
      f b ≤ (bestStartAux f l (b, f b)).2 ∧
      (∀ s ∈ l, f s ≤ (bestStartAux f l (b, f b)).2) ∧
      (b < (bestStartAux f l (b, f b)).1 → f b < (bestStartAux f l (b, f b)).2) ∧
      (∀ s ∈ l, s < (bestStartAux f l (b, f b)).1 →
        f s < (bestStartAux f l (b, f b)).2) := by
  intro l
  induction l with
  | nil =>
    intro b _
    refine ⟨rfl, Or.inl rfl, le_refl _, by simp, fun h => absurd h (lt_irrefl b), by simp⟩
  | cons x xs ih =>
    intro b hsorted
    rw [List.sorted_cons] at hsorted
    obtain ⟨hblt, hsorted'⟩ := hsorted
    have hbx : b < x := hblt x (List.mem_cons_self x xs)
    by_cases hfx : f b < f x
    · have hunfold : bestStartAux f (x :: xs) (b, f b) = bestStartAux f xs (x, f x) := by
        simp [bestStartAux, List.foldl_cons, if_pos hfx]
      obtain ⟨h1, h2, h3, h4, h5, h6⟩ := ih x hsorted'
      rw [hunfold]
      refine ⟨h1, ?_, le_of_lt (lt_of_lt_of_le hfx h3), ?_, fun _ => lt_of_lt_of_le hfx h3, ?_⟩
      · rcases h2 with h | h
        · exact Or.inr (by rw [h]; exact List.mem_cons_self x xs)
        · exact Or.inr (List.mem_cons_of_mem x h)
      · intro s hs
        rcases List.mem_cons.mp hs with rfl | hs'
        · exact h3
        · exact h4 s hs'
      · intro s hs hlt
        rcases List.mem_cons.mp hs with rfl | hs'
        · exact h5 hlt
        · exact h6 s hs' hlt
    · have hunfold : bestStartAux f (x :: xs) (b, f b) = bestStartAux f xs (b, f b) := by
        simp [bestStartAux, List.foldl_cons, if_neg hfx]
      have hsorted'' : List.Sorted (· < ·) (b :: xs) := by
        rw [List.sorted_cons]
        exact ⟨fun c hc => hblt c (List.mem_cons_of_mem x hc),
          (List.sorted_cons.mp hsorted').2⟩
      obtain ⟨h1, h2, h3, h4, h5, h6⟩ := ih b hsorted''
      rw [hunfold]
      have hxb : f x ≤ f b := not_lt.mp hfx
      refine ⟨h1, ?_, h3, ?_, h5, ?_⟩
      · rcases h2 with h | h
        · exact Or.inl h
        · exact Or.inr (List.mem_cons_of_mem x h)
      · intro s hs
        rcases List.mem_cons.mp hs with rfl | hs'
        · exact le_trans hxb h3
        · exact h4 s hs'
      · intro s hs hlt
        rcases List.mem_cons.mp hs with rfl | hs'
        · -- a tie or worse never displaces the earlier incumbent
          rcases h2 with hb | hmem
          · rw [hb] at hlt
            exact absurd (lt_trans hbx hlt) (lt_irrefl b)
          · have : b < (bestStartAux f xs (b, f b)).1 :=
              (List.sorted_cons.mp hsorted'').1 _ hmem
            exact lt_of_le_of_lt hxb (h5 this)
        · exact h6 s hs' hlt

/-- The scan's selected start is a scanned start, dominates every
scanned window's energy, and strictly dominates every earlier one
(first-seen wins ties). -/
lemma bestStart_max (y : List ℚ) (ws hop : ℕ) (hhop : 0 < hop) :
    bestStart y ws hop ∈ scanStarts y.length ws hop ∧
    (∀ s ∈ scanStarts y.length ws hop,
        rmsSq (segAt y s ws) ≤ rmsSq (segAt y (bestStart y ws hop) ws)) ∧
    (∀ s ∈ scanStarts y.length ws hop, s < bestStart y ws hop →
        rmsSq (segAt y s ws) < rmsSq (segAt y (bestStart y ws hop) ws)) := by
  have hKpos : 0 < (y.length - ws + hop) / hop :=
    Nat.div_pos (Nat.le_add_left hop _) hhop
  obtain ⟨K', hK'⟩ : ∃ K', (y.length - ws + hop) / hop = K' + 1 :=
    ⟨(y.length - ws + hop) / hop - 1, by omega⟩
  have hscan : scanStarts y.length ws hop = 0 :: List.range' (0 + hop) K' hop := by
    rw [scanStarts, hK', List.range'_succ]
  have hsorted : List.Sorted (· < ·) (0 :: List.range' (0 + hop) K' hop) := by
    have h := List.pairwise_lt_range' 0 ((y.length - ws + hop) / hop) hop hhop
    rw [hK', List.range'_succ] at h
    exact h
  have hstep : bestStartAux (fun s => rmsSq (segAt y s ws))
        (0 :: List.range' (0 + hop) K' hop) (0, -1)
      = bestStartAux (fun s => rmsSq (segAt y s ws))
        (List.range' (0 + hop) K' hop) (0, rmsSq (segAt y 0 ws)) := by
    rw [bestStartAux, List.foldl_cons, bestStartAux]
    congr 1
    rw [if_pos]
    exact lt_of_lt_of_le (by norm_num) (rmsSq_nonneg _)
  obtain ⟨h1, h2, h3, h4, h5, h6⟩ :=
    bestStartAux_spec (fun s => rmsSq (segAt y s ws))
      (List.range' (0 + hop) K' hop) 0 hsorted
  have hbest : bestStart y ws hop
      = (bestStartAux (fun s => rmsSq (segAt y s ws))
          (List.range' (0 + hop) K' hop) (0, rmsSq (segAt y 0 ws))).1 := by
    rw [bestStart, hscan, hstep]
  have hval : rmsSq (segAt y (bestStart y ws hop) ws)
      = (bestStartAux (fun s => rmsSq (segAt y s ws))
          (List.range' (0 + hop) K' hop) (0, rmsSq (segAt y 0 ws))).2 := by
    rw [hbest]
    exact h1.symm
  refine ⟨?_, ?_, ?_⟩
  · rw [hscan, hbest]
    rcases h2 with h | h
    · rw [h]; exact List.mem_cons_self _ _
    · exact List.mem_cons_of_mem _ h
  · intro s hs
    rw [hscan] at hs
    rw [hval]
    rcases List.mem_cons.mp hs with rfl | hs'
    · exact h3
    · exact h4 s hs'
  · intro s hs hlt
    rw [hscan] at hs
    rw [hbest] at hlt
    rw [hval]
    rcases List.mem_cons.mp hs with rfl | hs'
    · exact h5 hlt
    · exact h6 s hs' hlt

/-- CLAIM C1 (amended): `highest_rms` scans the decoded buffer of the
original source file (not the post-loop track) with hop
`int(sr * 0.05)` and window `int(sr * target_ms / 1000)` at the fixed
analysis rate; when the window is nondegenerate (`0 < window < len`)
the selected start is a scanned start whose RMS is the greatest among
all scanned windows of the source buffer, first-seen winning ties; the
millisecond result is `int(1000 * best_start / sr)`, clamped into
`[0, looped_length_ms - target_ms]` against the post-loop length. -/
theorem claim_C1_amended (y : List ℚ) (sr window_ms ws hop : ℕ)
    (hws_def : ws = sr * window_ms / 1000) (hhop_def : hop = sr * 5 / 100)
    (hhop : 0 < hop) (hws : 0 < ws) (hlen : ws < y.length) :
    (bestStart y ws hop ∈ scanStarts y.length ws hop) ∧
    (∀ s ∈ scanStarts y.length ws hop,
        rmsSq (segAt y s ws) ≤ rmsSq (segAt y (bestStart y ws hop) ws)) ∧
    (∀ s ∈ scanStarts y.length ws hop, s < bestStart y ws hop →
        rmsSq (segAt y s ws) < rmsSq (segAt y (bestStart y ws hop) ws)) ∧
    (find_highest_rms_window_ms y window_ms sr
        = 1000 * bestStart y ws hop / sr) ∧
    (make_snippet_start_ms y sr window_ms
        ≤ loopedLengthMs y sr window_ms - window_ms) := by
  obtain ⟨hmem, hmax, hstrict⟩ := bestStart_max y ws hop hhop
  have hne : y.length ≠ 0 := by omega
  have hfind : find_highest_rms_window_ms y window_ms sr
      = 1000 * bestStart y ws hop / sr := by
    rw [find_highest_rms_window_ms, if_neg hne, ← hws_def, ← hhop_def, if_neg]
    push_neg
    exact ⟨by omega, by omega⟩
  exact ⟨hmem, hmax, hstrict, hfind, min_le_right _ _⟩

/-- Witness buffer for the amended C1: 2000 unit samples. -/
def yW : List ℚ := List.replicate 2000 1

/-- Witness for the amended C1 at `sr = 22050`, `target_ms = 50`
(window 1102 samples, hop 1102 samples). -/
theorem claim_C1_amended_witness :
    (bestStart yW 1102 1102 ∈ scanStarts yW.length 1102 1102) ∧
    (∀ s ∈ scanStarts yW.length 1102 1102,
        rmsSq (segAt yW s 1102) ≤ rmsSq (segAt yW (bestStart yW 1102 1102) 1102)) ∧
    (∀ s ∈ scanStarts yW.length 1102 1102, s < bestStart yW 1102 1102 →
        rmsSq (segAt yW s 1102) < rmsSq (segAt yW (bestStart yW 1102 1102) 1102)) ∧
    (find_highest_rms_window_ms yW 50 22050
        = 1000 * bestStart yW 1102 1102 / 22050) ∧
    (make_snippet_start_ms yW 22050 50 ≤ loopedLengthMs yW 22050 50 - 50) :=
  claim_C1_amended yW 22050 50 1102 1102 (by decide) (by decide) (by decide)
    (by decide) (by rw [yW, List.length_replicate]; norm_num)

/-- Counterexample buffer: 2203 silent samples, one unit sample, one
silent sample — 2205 samples, i.e. 100 ms at 22050 Hz. -/
def yC1 : List ℚ := List.replicate 2203 0 ++ [1, 0]

lemma yC1_length : yC1.length = 2205 := by
  rw [yC1, List.length_append, List.length_replicate]
  decide

/-- CLAIM C1 counterexample.  For the 100 ms source `yC1` and
`target_ms = 150`, looping doubles the track to 200 ms, the energy scan
reads only the original source (whose buffer is shorter than the
window) and returns offset 0 — yet the post-loop window at the
hop-aligned start 1102 samples (50 ms) has strictly greater RMS than
the selected window at 0, so the selected window does not dominate the
post-loop scan the claim describes. -/
theorem claim_C1_counterexample :
    make_snippet_start_ms yC1 22050 150 = 0 ∧
    ((22050 * 150 / 1000 : ℕ) = 3307) ∧ ((22050 * 5 / 100 : ℕ) = 1102) ∧
    ((1102 : ℕ) ∈ scanStarts (loopedAudio yC1 22050 150).length 3307 1102) ∧
    rmsSq (segAt (loopedAudio yC1 22050 150) 0 3307)
      < rmsSq (segAt (loopedAudio yC1 22050 150) 1102 3307) := by
  have hylen := yC1_length
  have hms : 1000 * yC1.length / 22050 = 100 := by rw [hylen]
  have hlc : loopCount 100 150 = 2 := by decide
  have hlooped : loopedAudio yC1 22050 150 = yC1 ++ yC1 := by
    rw [loopedAudio, hms, hlc, if_pos (by norm_num)]
    simp [List.replicate]
  have hloopedlen : (loopedAudio yC1 22050 150).length = 4410 := by
    rw [hlooped, List.length_append, hylen]
  have hfind : find_highest_rms_window_ms yC1 150 22050 = 0 := by
    rw [find_highest_rms_window_ms, if_neg (by rw [hylen]; norm_num),
      if_pos (Or.inr (by rw [hylen]; norm_num))]
  have hstart : make_snippet_start_ms yC1 22050 150 = 0 := by
    rw [make_snippet_start_ms, hfind]
    exact Nat.zero_min _
  have htake1102 : yC1.take 1102 = List.replicate 1102 (0 : ℚ) := by
    rw [yC1, List.take_append_eq_append_take, List.take_replicate,
      List.length_replicate,
      show min 1102 2203 = 1102 from by decide,
      show (1102 - 2203 : ℕ) = 0 from by decide,
      List.take_zero, List.append_nil]
  have htake2204 : yC1.take 2204 = List.replicate 2203 (0 : ℚ) ++ [1] := by
    rw [yC1, List.take_append_eq_append_take, List.take_replicate,
      List.length_replicate,
      show min 2204 2203 = 2203 from by decide,
      show (2204 - 2203 : ℕ) = 1 from by decide,
      show List.take 1 ([1, 0] : List ℚ) = [1] from rfl]
  have hdrop1102 : yC1.drop 1102 = List.replicate 1101 (0 : ℚ) ++ [1, 0] := by
    rw [yC1, List.drop_append_eq_append_drop, List.drop_replicate,
      List.length_replicate,
      show (2203 - 1102 : ℕ) = 1101 from by decide,
      show (1102 - 2203 : ℕ) = 0 from by decide,
      List.drop_zero]
  have hseg0 : segAt (loopedAudio yC1 22050 150) 0 3307
      = yC1 ++ List.replicate 1102 (0 : ℚ) := by
    rw [hlooped, segAt, List.drop_zero, List.take_append_eq_append_take,
      List.take_of_length_le (by rw [hylen]; norm_num), hylen,
      show (3307 - 2205 : ℕ) = 1102 from by decide, htake1102]
  have hA_len : (List.replicate 1101 (0 : ℚ) ++ [1, 0]).length = 1103 := by
    rw [List.length_append, List.length_replicate]
    decide
  have hseg1 : segAt (loopedAudio yC1 22050 150) 1102 3307
      = (List.replicate 1101 (0 : ℚ) ++ [1, 0])
        ++ (List.replicate 2203 (0 : ℚ) ++ [1]) := by
    rw [hlooped, segAt, List.drop_append_eq_append_drop, hylen,
      show (1102 - 2205 : ℕ) = 0 from by decide, List.drop_zero, hdrop1102,
      List.take_append_eq_append_take,
      List.take_of_length_le (le_of_eq_of_le hA_len (by norm_num)), hA_len,
      show (3307 - 1103 : ℕ) = 2204 from by decide, htake2204]
  have hsumy : sumSq yC1 = 1 := by
    rw [yC1, sumSq_append, sumSq_replicate_zero]
    norm_num [sumSq]
  have hsum0 : sumSq (segAt (loopedAudio yC1 22050 150) 0 3307) = 1 := by
    rw [hseg0, sumSq_append, sumSq_replicate_zero, hsumy]
    norm_num
  have hsum1 : sumSq (segAt (loopedAudio yC1 22050 150) 1102 3307) = 2 := by
    rw [hseg1, sumSq_append, sumSq_append, sumSq_append,
      sumSq_replicate_zero, sumSq_replicate_zero]
    norm_num [sumSq]
  have hlen0 : (segAt (loopedAudio yC1 22050 150) 0 3307).length = 3307 := by
    rw [hseg0, List.length_append, List.length_replicate, hylen]
  have hlen1 : (segAt (loopedAudio yC1 22050 150) 1102 3307).length = 3307 := by
    rw [hseg1, List.length_append, List.length_append, List.length_append,
      List.length_replicate, List.length_replicate]
    decide
  refine ⟨hstart, by norm_num, by norm_num, ?_, ?_⟩
  · rw [hloopedlen]
    decide
  · rw [rmsSq, rmsSq, hsum0, hsum1, hlen0, hlen1]
    norm_num

/-- CLAIM C10: when the decoded analysis buffer of the source file is
empty, or the analysis window is at least as long as that buffer — in
particular whenever the source is shorter than `target_ms`, since the
energy scan reads the original source file — the `highest_rms` branch
selects start offset 0 after clamping. -/
theorem claim_C10 (y : List ℚ) (sr snippet_ms : ℕ)
    (h : 1000 * y.length < sr * snippet_ms ∨ y.length = 0 ∨
      y.length ≤ sr * snippet_ms / 1000) :
    make_snippet_start_ms y sr snippet_ms = 0 := by
  have hcase : y.length = 0 ∨ y.length ≤ sr * snippet_ms / 1000 := by
    rcases h with h | h | h
    · right
      rw [Nat.le_div_iff_mul_le (by norm_num : 0 < 1000)]
      omega
    · left; exact h
    · right; exact h
  have hfind : find_highest_rms_window_ms y snippet_ms sr = 0 := by
    rw [find_highest_rms_window_ms]
    rcases hcase with h0 | hle
    · rw [if_pos h0]
    · by_cases h0 : y.length = 0
      · rw [if_pos h0]
      · rw [if_neg h0, if_pos (Or.inr hle)]
  rw [make_snippet_start_ms, hfind]
  exact Nat.zero_min _

/-- Witness for C10: a two-sample source and a 15-second target select
offset 0. -/
theorem claim_C10_witness :
    (1000 * ([1, 1] : List ℚ).length < 22050 * 15000) ∧
    make_snippet_start_ms [1, 1] 22050 15000 = 0 :=
  ⟨by decide, claim_C10 [1, 1] 22050 15000 (Or.inl (by decide))⟩
